import Mathlib

/-!
Shallow embedding of `src/src/cocoa/toga_cocoa/widgets/table.py`: the Cocoa
backend of the toga `Table` widget. The file has two classes:

* `TogaTable` (an `NSTableView` subclass acting as its own data source and
  delegate): `numberOfRowsInTableView_`,
  `tableView_objectValueForTableColumn_row_`,
  `selectionShouldChangeInTableView_`, `tableViewSelectionDidChange_`.
* `Table` (the widget impl): `create`, `change_source`, `insert`, `change`,
  `remove`, `clear`, `set_on_select`, `scroll_to_row`, `rehint`,
  `_add_column`, `add_column`, `remove_column`.

Python values stored in row attributes are modelled by `CellValue`: a plain
value carries its `str()` form and its optional `icon` attribute; a Python
tuple is modelled by `CellValue.pair` (the code special-cases
`isinstance(value, tuple)` and unpacks it as `(icon, value)`).  Object
identity of the lazily allocated `TogaData` render objects is modelled by a
heap (`Heap`) of objects addressed by allocation index.  The interface
object (`self.interface`, toga-core side, an external collaborator of this
file) is modelled by the `Interface` record of the attributes the code
reads: `data`, `multiple_select`, `missing_value`, `on_select`, `factory`.
`missing_value` is a property that either yields a value or raises
`ValueError(message, fallback)`; it is modelled by `Except`.
-/

namespace TogaCocoaTable

/-- A Python value that can appear as a cell value.
`plain s icon` is a non-tuple value whose `str()` is `s` and whose `icon`
attribute is `icon` (`none` meaning the attribute is absent).
`pair a b` is a Python 2-tuple `(a, b)`; tuples have no `icon` attribute. -/
inductive CellValue where
  | plain (s : String) (icon : Option Nat)
  | pair (fst snd : CellValue)
deriving DecidableEq

/-- Python `str(value)`.  For a tuple the exact text Python produces is a
repr of the components in parentheses; the model keeps the parenthesised
shape, which is all the development relies on. -/
def strValue : CellValue → String
  | .plain s _ => s
  | .pair a b => "(" ++ strValue a ++ ", " ++ strValue b ++ ")"

/-- `value.icon`: present only on plain values carrying an icon attribute
(`getattr` on a tuple raises `AttributeError`, modelled by `none`). -/
def iconAttr : CellValue → Option Nat
  | .plain _ i => i
  | .pair _ _ => none

/-- The icon slot of a `TogaData` render object.  The code stores either
Python `None`, the first element of an `(icon, value)` tuple unchanged, or
the result of `value.icon.bind(self.interface.factory)`. -/
inductive DatumIcon where
  | nil
  | raw (v : CellValue)
  | bound (icon : Nat) (factory : Nat)
deriving DecidableEq

/-- The `attrs` dict assigned to a `TogaData`: `{'label': ..., 'icon': ...}`. -/
structure TogaDataAttrs where
  label : String
  icon : DatumIcon
deriving DecidableEq

/-- A `TogaData` object; right after `TogaData.alloc().init()` its `attrs`
is not yet set (`none`). -/
structure TogaData where
  attrs : Option TogaDataAttrs
deriving DecidableEq

/-- Heap of allocated `TogaData` objects; an object is identified by its
index in `objs`, so equal indices mean the identical Python object. -/
structure Heap where
  objs : List TogaData
deriving DecidableEq

/-- Allocate a fresh `TogaData` (its id is `h.objs.length`). -/
def Heap.alloc (h : Heap) : Heap :=
  ⟨h.objs ++ [⟨none⟩]⟩

/-- `datum.attrs = {...}`: overwrite the attrs of object `i`. -/
def Heap.setAttrs (h : Heap) (i : Nat) (a : TogaDataAttrs) : Heap :=
  ⟨h.objs.set i ⟨some a⟩⟩

/-- A data row: its named attributes (`getattr(data_row, name)` is an
association-list lookup) and its `_impl` per-row render cache, a dict from
column identifier to `TogaData` heap id (`none` when the `_impl` attribute
does not exist yet on the row). -/
structure Row where
  attrs : List (String × CellValue)
  impl : Option (List (String × Nat))
deriving DecidableEq, Inhabited

/-- The behaviour of the interface's `missing_value` property: either it
yields a configured value, or reading it raises
`ValueError(message, fallback)` (the backend catches the error, prints the
formatted message and uses the fallback payload as the value). -/
inductive MissingValueProp where
  | value (v : CellValue)
  | valueError (message : String) (fallback : CellValue)
deriving DecidableEq

/-- The slice of the toga-core interface object that this backend reads. -/
structure Interface where
  data : Option (List Row)
  multiple_select : Bool
  missing_value : MissingValueProp
  on_select : Bool
  factory : Nat
deriving DecidableEq

/-- Models `message.format(row, col_identifier)` in the diagnostic branch:
the message text with the row index and accessor substituted in. -/
def fmtDiag (message : String) (row : Nat) (colId : String) : String :=
  message ++ " " ++ toString row ++ " " ++ colId

/-- `numberOfRowsInTableView_`:
`return len(self.interface.data) if self.interface.data else 0`.
A Python truthiness test: `None` and an empty data source are both falsy. -/
def numberOfRowsInTableView_ (iface : Interface) : Nat :=
  match iface.data with
  | none => 0
  | some rows => if rows.isEmpty then 0 else rows.length

/-- The `try: data = data_row._impl except AttributeError: ...` block:
yields the row's `_impl` dict, creating it as `{}` when absent. -/
def rowCache (r : Row) : List (String × Nat) :=
  r.impl.getD []

/-- The `try: datum = data[col_identifier] except KeyError: ...` block:
get the `TogaData` for this column from the per-row cache, or allocate a
fresh one and store it in the cache.  Returns (datum id, heap, cache). -/
def getOrCreateDatum (heap : Heap) (cache : List (String × Nat))
    (colId : String) : Nat × Heap × List (String × Nat) :=
  match cache.lookup colId with
  | some d => (d, heap, cache)
  | none => (heap.objs.length, heap.alloc, cache ++ [(colId, heap.objs.length)])

/-- The `try: value = getattr(data_row, col_identifier) except ...` block:
resolve the cell value, substituting `self.interface.missing_value` when
the row lacks the attribute, and falling back to the `ValueError` payload
(printing the formatted message) when no missing value is configured.
Returns the value and the list of printed diagnostics. -/
def resolveValueStep (iface : Interface) (row : Row) (colId : String)
    (rowIdx : Nat) : CellValue × List String :=
  match row.attrs.lookup colId with
  | some v => (v, [])
  | none =>
    match iface.missing_value with
    | .value mv => (mv, [])
    | .valueError message fv => (fv, [fmtDiag message rowIdx colId])

/-- The `(icon, value)` tuple split / icon-attribute binding block:
a tuple is unpacked as `icon, value = value`; otherwise
`icon = value.icon.bind(self.interface.factory)`, with `AttributeError`
caught as `icon = None`.  Returns (icon, value-after-split). -/
def splitIcon (factory : Nat) : CellValue → DatumIcon × CellValue
  | .pair f s => (.raw f, s)
  | v =>
    match iconAttr v with
    | some ic => (.bound ic factory, v)
    | none => (.nil, v)

/-- The outcome of `tableView_objectValueForTableColumn_row_`: the returned
datum's heap id, the updated heap, the updated data row (its `_impl` cache
may have been created or extended), and the printed diagnostics. -/
structure CellResult where
  datumId : Nat
  heap : Heap
  row : Row
  output : List String
deriving DecidableEq

/-- `tableView_objectValueForTableColumn_row_(self, table, column, row)`,
with `colId = str(column.identifier)`.  `none` models the uncaught Python
exception raised when `self.interface.data` is `None` or the row index is
out of range. -/
def tableView_objectValueForTableColumn_row_ (iface : Interface)
    (heap : Heap) (colId : String) (rowIdx : Nat) : Option CellResult :=
  match iface.data with
  | none => none
  | some rows =>
    match rows.get? rowIdx with
    | none => none
    | some data_row =>
      let cache := rowCache data_row
      let dhc := getOrCreateDatum heap cache colId
      let vo := resolveValueStep iface data_row colId rowIdx
      let iv := splitIcon iface.factory vo.1
      some { datumId := dhc.1
             heap := (dhc.2.1).setAttrs dhc.1 ⟨strValue iv.2, iv.1⟩
             row := { data_row with impl := some dhc.2.2 }
             output := vo.2 }

/-- The label of the returned render object: the `label` attr of the
`TogaData` the result points at. -/
def CellResult.label (r : CellResult) : Option String :=
  ((r.heap.objs.get? r.datumId).bind (·.attrs)).map (·.label)

/-- The icon of the returned render object. -/
def CellResult.icon (r : CellResult) : Option DatumIcon :=
  ((r.heap.objs.get? r.datumId).bind (·.attrs)).map (·.icon)

/-- Spec-side formula: the value resolved for a row's attribute (attribute
lookup with missing-value / ValueError-payload fallback), without the
diagnostic channel. -/
def resolvedValue (iface : Interface) (row : Row) (colId : String) : CellValue :=
  match row.attrs.lookup colId with
  | some v => v
  | none =>
    match iface.missing_value with
    | .value mv => mv
    | .valueError _ fv => fv

/-- Spec-side formula: the value the label is computed from — the resolved
value after the `(icon, value)` tuple split. -/
def stripIconPair : CellValue → CellValue
  | .pair _ s => s
  | v => v

/-- Spec-side formula: the icon the claims describe — the tuple's first
element for an `(icon, value)` pair, otherwise the value's icon attribute
bound through the factory, or no icon. -/
def iconFormula (factory : Nat) (v : CellValue) : DatumIcon :=
  match v with
  | .pair f _ => .raw f
  | v =>
    match iconAttr v with
    | some ic => .bound ic factory
    | none => .nil

/-! ## Selection delegate (`tableViewSelectionDidChange_`)

`self.selectedRowIndexes` is an `NSIndexSet`; it is modelled by the
ascending, duplicate-free list of its indices.  `firstIndex` is the head of
that list, `count` its length, and `indexGreaterThanIndex(i)` the least
index greater than `i` (absent when there is none, in which case Cocoa
returns `NSNotFound` and the subsequent `self.interface.data[...]` access
would blow up — modelled by `none`). -/

/-- `selectedRowIndexes.indexGreaterThanIndex(i)` on the index list `s`. -/
def indexGreaterThan (s : List Nat) (i : Nat) : Option Nat :=
  (s.filter (fun j => i < j)).head?

/-- The `for i in range(self.selectedRowIndexes.count)` loop that builds
`selection`: fuel is the remaining iteration count, the `Option Nat` is
`current_index`.  Each iteration appends `self.interface.data[current_index]`
(a crash — `none` — when `data` is `None` or the index is out of range). -/
def selLoop (dataOpt : Option (List Row)) (s : List Nat) :
    Nat → Option Nat → Option (List Row)
  | 0, _ => some []
  | _ + 1, none => none
  | n + 1, some cur => do
    let rows ← dataOpt
    let r ← rows.get? cur
    let rest ← selLoop dataOpt s n (indexGreaterThan s cur)
    pure (r :: rest)

/-- The value stored into `self.interface._selection`. -/
inductive AbstractSel where
  | noSel
  | single (r : Row)
  | multi (rs : List Row)
deriving DecidableEq

/-- Python list indexing `rows[i]` for a (possibly negative) int index. -/
def pyIndex (rows : List Row) (i : Int) : Option Row :=
  let j := if i < 0 then (rows.length : Int) + i else i
  if 0 ≤ j then rows.get? j.toNat else none

/-- `tableViewSelectionDidChange_(self, notification)`.
`selIdxs` models `self.selectedRowIndexes` (ascending index list),
`activeRow` models `notification.object.selectedRow`.  The result is the
new `self.interface._selection` together with the `on_select` invocation:
`none` when no callback is registered, `some arg` when the callback is
called exactly once with row argument `arg` (`some none` = called with
`row=None`).  The whole result is `none` when the Python handler would
raise (bad index into the data source). -/
def tableViewSelectionDidChange_ (iface : Interface) (selIdxs : List Nat)
    (activeRow : Int) : Option (AbstractSel × Option (Option Row)) := do
  let selection ← selLoop iface.data selIdxs selIdxs.length selIdxs.head?
  let absSel :=
    if !iface.multiple_select then
      match selection with
      | [] => AbstractSel.noSel
      | r :: _ => AbstractSel.single r
    else AbstractSel.multi selection
  let selected ←
    if activeRow = -1 then
      pure (none : Option Row)
    else do
      let rows ← iface.data
      let r ← pyIndex rows activeRow
      pure (some r)
  pure (absSel, if iface.on_select then some selected else none)

/-- `selectionShouldChangeInTableView_`: explicitly allows selection. -/
def selectionShouldChangeInTableView_ : Bool :=
  true

/-! ## The `Table` widget impl

Adapter state: the allocation counter for native `NSTableColumn` objects
(object identity), the native table's column array, the tracked
`self.columns` list, and the `self.column_identifiers` dict (accessor →
cached ObjC identifier string; `at(accessor)` produces an ObjC string equal
to the accessor).  Calls into the native view that carry no state the
claims read back (`reloadData`, `sizeToFit`, `scrollRowToVisible`) are
logged in a call trace. -/

/-- A native `NSTableColumn`: `uid` is its allocation identity,
`identifier` the ObjC identifier string it was created with, `heading` the
header cell's string value. -/
structure NativeCol where
  uid : Nat
  identifier : String
  heading : String
deriving DecidableEq

/-- Adapter-side state of the `Table` impl. -/
structure TableState where
  nextUid : Nat
  tableColumns : List NativeCol
  columns : List NativeCol
  column_identifiers : List (String × String)
deriving DecidableEq

/-- Calls issued to the native view. -/
inductive NativeCall where
  | reloadData
  | sizeToFit
  | addTableColumn (c : NativeCol)
  | removeTableColumn (c : NativeCol)
  | scrollRowToVisible (row : Nat)
deriving DecidableEq

/-- Python exceptions `remove_column` can raise. -/
inductive TableErr where
  | keyError
  | nilColumn
  | valueError
deriving DecidableEq

/-- Python dict assignment `d[k] = v` (insertion order preserved, existing
key updated in place). -/
def dictInsert (d : List (String × String)) (k v : String) :
    List (String × String) :=
  if (d.lookup k).isSome then
    d.map (fun p => if p.1 = k then (k, v) else p)
  else
    d ++ [(k, v)]

/-- Python `del d[k]` for a key known to be present. -/
def dictDelete (d : List (String × String)) (k : String) :
    List (String × String) :=
  d.filter (fun p => p.1 ≠ k)

/-- Python `list.remove(x)`: drop the first occurrence. -/
def removeFirst [DecidableEq α] : List α → α → List α
  | [], _ => []
  | x :: xs, a => if x = a then xs else x :: removeFirst xs a

namespace TableImpl

/-- `Table._add_column(heading, accessor)`: cache `at(accessor)` in
`column_identifiers`, allocate the `NSTableColumn` with that identifier,
`addTableColumn` it, append it to `self.columns`, install the data cell and
set the header text. -/
def _add_column (s : TableState) (heading accessor : String) :
    TableState × List NativeCall :=
  let col : NativeCol := ⟨s.nextUid, accessor, heading⟩
  ({ nextUid := s.nextUid + 1
     tableColumns := s.tableColumns ++ [col]
     columns := s.columns ++ [col]
     column_identifiers := dictInsert s.column_identifiers accessor accessor },
   [.addTableColumn col])

/-- `Table.add_column(heading, accessor)`: `_add_column` then
`self.table.sizeToFit()`. -/
def add_column (s : TableState) (heading accessor : String) :
    TableState × List NativeCall :=
  let r := _add_column s heading accessor
  (r.1, r.2 ++ [.sizeToFit])

/-- `self.table.tableColumnWithIdentifier(ident)`: the first native column
whose identifier is equal (`isEqual:` on the ObjC strings) to `ident`. -/
def tableColumnWithIdentifier (s : TableState) (ident : String) :
    Option NativeCol :=
  s.tableColumns.find? (fun c => c.identifier = ident)

/-- Outcome of `Table.remove_column`: the state as left by the call (also
on an exception: every mutation before the raise has happened), the native
calls issued, and the exception if one propagates. -/
structure RemoveResult where
  state : TableState
  calls : List NativeCall
  err : Option TableErr
deriving DecidableEq

/-- `Table.remove_column(accessor)`:
`self.column_identifiers[accessor]` (KeyError when absent), resolve the
native column by identifier, `removeTableColumn` it, `self.columns.remove`
it, `del self.column_identifiers[accessor]`, `sizeToFit`. -/
def remove_column (s : TableState) (accessor : String) : RemoveResult :=
  match s.column_identifiers.lookup accessor with
  | none => ⟨s, [], some .keyError⟩
  | some ident =>
    match tableColumnWithIdentifier s ident with
    | none => ⟨s, [], some .nilColumn⟩
    | some col =>
      let s1 := { s with tableColumns := removeFirst s.tableColumns col }
      if col ∈ s1.columns then
        ⟨{ s1 with
             columns := removeFirst s1.columns col
             column_identifiers := dictDelete s1.column_identifiers accessor },
         [.removeTableColumn col, .sizeToFit], none⟩
      else
        ⟨s1, [.removeTableColumn col], some .valueError⟩

/-- `Table.change_source(source)`: `self.table.reloadData()`. -/
def change_source (s : TableState) : TableState × List NativeCall :=
  (s, [.reloadData])

/-- `Table.insert(index, item)`: `self.table.reloadData()`. -/
def insert (s : TableState) (_index : Nat) (_item : Row) :
    TableState × List NativeCall :=
  (s, [.reloadData])

/-- `Table.change(item)`: `self.table.reloadData()`. -/
def change (s : TableState) (_item : Row) : TableState × List NativeCall :=
  (s, [.reloadData])

/-- `Table.remove(item)`: `self.table.reloadData()`. -/
def remove (s : TableState) (_item : Row) : TableState × List NativeCall :=
  (s, [.reloadData])

/-- `Table.clear()`: `self.table.reloadData()`. -/
def clear (s : TableState) : TableState × List NativeCall :=
  (s, [.reloadData])

/-- `Table.set_on_select(handler)`: `pass` — stores nothing. -/
def set_on_select (s : TableState) (_handler : Nat) :
    TableState × List NativeCall :=
  (s, [])

/-- `Table.scroll_to_row(row)`: `self.table.scrollRowToVisible(row)`. -/
def scroll_to_row (s : TableState) (row : Nat) :
    TableState × List NativeCall :=
  (s, [.scrollRowToVisible row])

/-- `Table.rehint()`: writes `self.interface.intrinsic.width/height` (an
interface-side attribute, not adapter state) and issues no native table
calls. -/
def rehint (s : TableState) : TableState × List NativeCall :=
  (s, [])

/-- The column-management part of `Table.create()`: starting from empty
column bookkeeping, `_add_column` every `(heading, accessor)` pair of
`zip(self.interface.headings, self.interface._accessors)`. -/
def createColumns (headings accessors : List String) : TableState :=
  (headings.zip accessors).foldl
    (fun s p => (_add_column s p.1 p.2).1)
    ⟨0, [], [], []⟩

end TableImpl

/-! ## Spec-side formulas and well-formedness -/

/-- Spec-side formula for the abstract selection: the full ordered row list
under multiple-select, otherwise the first selected row or no selection. -/
def absSelFormula (multi : Bool) (selection : List Row) : AbstractSel :=
  if multi then .multi selection
  else
    match selection with
    | [] => .noSel
    | r :: _ => .single r

/-- Spec-side formula for the `on_select` callback argument: the row at the
toolkit's active-row index, or `none` when that index is `-1`. -/
def activeRowFormula (rows : List Row) (activeRow : Int) : Option Row :=
  if activeRow = -1 then none else some (rows.getD activeRow.toNat default)

/-- Well-formedness of the adapter's column bookkeeping, as maintained by
`create` / `add_column` / `remove_column` (spec §4.3: the identifier map
and the tracked column list are kept in 1:1 correspondence with the native
table's columns): `self.columns` mirrors the native column array, every
native column's uid is below the allocation counter, and every native
column's identifier is a tracked key of `column_identifiers`. -/
def TableState.WF (s : TableState) : Prop :=
  s.columns = s.tableColumns ∧
  (∀ c ∈ s.tableColumns, c.uid < s.nextUid) ∧
  (∀ c ∈ s.tableColumns, (s.column_identifiers.lookup c.identifier).isSome)

instance (s : TableState) : Decidable s.WF := by
  unfold TableState.WF; infer_instance

/-! ## Concrete fixture states used by witnesses and counterexamples -/

/-- A row with a plain `name` attribute and no `_impl` cache yet. -/
def exRowA : Row := ⟨[("name", .plain "Ana" none)], none⟩

/-- A row whose `pic` attribute value carries an `icon` attribute. -/
def exRowB : Row := ⟨[("name", .plain "Bob" none), ("pic", .plain "B" (some 5))], none⟩

/-- A row whose `both` attribute is an `(icon, value)` tuple. -/
def exRowC : Row := ⟨[("both", .pair (.plain "I" none) (.plain "v" none))], none⟩

/-- A three-row interface with multiple-select and a registered callback. -/
def exIface : Interface :=
  ⟨some [exRowA, exRowB, exRowC], true, .value (.plain "?" none), true, 9⟩

/-- Single-select interface over the same rows, no registered callback. -/
def exIfaceSingle : Interface :=
  ⟨some [exRowA, exRowB, exRowC], false, .value (.plain "?" none), true, 9⟩

/-- An interface whose data source is present but empty. -/
def exIfaceEmpty : Interface := ⟨some [], false, .value (.plain "?" none), false, 0⟩

/-- An interface with no data source. -/
def exIfaceNone : Interface := ⟨none, false, .value (.plain "?" none), false, 0⟩

/-- The column state after `create` with headings `["Name"]`,
accessors `["name"]`. -/
def exState : TableState := TableImpl.createColumns ["Name"] ["name"]

/-- The empty heap (no `TogaData` allocated yet). -/
def emptyHeap : Heap := ⟨[]⟩

/-! ## General helper lemmas -/

theorem lookup_append_of_none {β : Type} (l l' : List (String × β)) (k : String)
    (h : l.lookup k = none) : (l ++ l').lookup k = l'.lookup k := by
  induction l with
  | nil => rfl
  | cons p ps ih =>
    obtain ⟨pk, pv⟩ := p
    rw [List.lookup_cons] at h
    rw [List.cons_append, List.lookup_cons]
    cases hk : (k == pk) with
    | true => rw [hk] at h; exact absurd h (by simp)
    | false => rw [hk] at h; exact ih h

theorem lookup_some_mem {β : Type} (l : List (String × β)) (k : String) (v : β)
    (h : l.lookup k = some v) : ∃ p ∈ l, p.2 = v := by
  induction l with
  | nil => exact absurd h (by simp [List.lookup])
  | cons p ps ih =>
    obtain ⟨pk, pv⟩ := p
    rw [List.lookup_cons] at h
    cases hk : (k == pk) with
    | true =>
      rw [hk] at h
      exact ⟨(pk, pv), List.mem_cons_self _ ps, Option.some.inj h⟩
    | false =>
      rw [hk] at h
      obtain ⟨q, hq, hv⟩ := ih h
      exact ⟨q, List.mem_cons_of_mem _ hq, hv⟩

theorem lookup_eq_none_of_forall_ne {β : Type} (l : List (String × β)) (k : String)
    (h : ∀ p ∈ l, p.1 ≠ k) : l.lookup k = none := by
  induction l with
  | nil => rfl
  | cons p ps ih =>
    obtain ⟨pk, pv⟩ := p
    rw [List.lookup_cons]
    have hne : (k == pk) = false := by
      simp only [beq_eq_false_iff_ne, ne_eq]
      exact fun hk => (h (pk, pv) (List.mem_cons_self _ ps)) hk.symm
    rw [hne]
    exact ih fun q hq => h q (List.mem_cons_of_mem _ hq)

theorem filter_ne_of_lookup_none {β : Type} (l : List (String × β)) (k : String)
    (h : l.lookup k = none) : l.filter (fun p => p.1 ≠ k) = l := by
  induction l with
  | nil => rfl
  | cons p ps ih =>
    obtain ⟨pk, pv⟩ := p
    rw [List.lookup_cons] at h
    cases hk : (k == pk) with
    | true => rw [hk] at h; exact absurd h (by simp)
    | false =>
      rw [hk] at h
      have hne : pk ≠ k := fun he => by simp [he] at hk
      rw [List.filter_cons, if_pos (by simp [hne]), ih h]

theorem removeFirst_append_of_not_mem [DecidableEq α] (l l' : List α) (a : α)
    (h : a ∉ l) : removeFirst (l ++ l') a = l ++ removeFirst l' a := by
  induction l with
  | nil => rfl
  | cons x xs ih =>
    have hx : x ≠ a := fun he => h (he ▸ List.mem_cons_self x xs)
    have hxs : a ∉ xs := fun hm => h (List.mem_cons_of_mem x hm)
    simp [removeFirst, hx, ih hxs]

theorem get?_set_lt {α : Type} (l : List α) (i : Nat) (a : α) (h : i < l.length) :
    (l.set i a).get? i = some a := by
  induction l generalizing i with
  | nil => exact absurd h (by simp)
  | cons x xs ih =>
    cases i with
    | zero => rfl
    | succ n => simpa using ih n (by simpa using h)

/-! ## Characterization lemmas for the embedded methods -/

theorem resolveValueStep_fst (iface : Interface) (row : Row) (colId : String)
    (rowIdx : Nat) :
    (resolveValueStep iface row colId rowIdx).1 = resolvedValue iface row colId := by
  unfold resolveValueStep resolvedValue
  cases row.attrs.lookup colId with
  | some v => rfl
  | none => cases iface.missing_value with
    | value mv => rfl
    | valueError m fv => rfl

theorem splitIcon_eq (factory : Nat) (v : CellValue) :
    splitIcon factory v = (iconFormula factory v, stripIconPair v) := by
  cases v with
  | pair f s => rfl
  | plain s i => cases i with
    | none => rfl
    | some ic => rfl

theorem filter_gt_of_pairwise (p u : List Nat) (b : Nat)
    (hs : (p ++ b :: u).Pairwise (· < ·)) :
    (p ++ b :: u).filter (fun j => b < j) = u := by
  rw [List.pairwise_append] at hs
  obtain ⟨hp, hbu, hcross⟩ := hs
  rw [List.pairwise_cons] at hbu
  obtain ⟨hbu', hu⟩ := hbu
  rw [List.filter_append]
  have h1 : p.filter (fun j => b < j) = [] := by
    rw [List.filter_eq_nil_iff]
    intro x hx
    have hxb : x < b := hcross x hx b (List.mem_cons_self b u)
    simp [Nat.not_lt.mpr (Nat.le_of_lt hxb)]
  have h2 : (b :: u).filter (fun j => b < j) = u := by
    rw [List.filter_cons]
    have hb : ¬(decide (b < b) = true) := by simp
    rw [if_neg hb, List.filter_eq_self.mpr]
    intro x hx
    simpa using hbu' x hx
  rw [h1, h2, List.nil_append]

theorem selLoop_sorted (rows : List Row) (p u : List Nat)
    (hs : (p ++ u).Pairwise (· < ·))
    (hb : ∀ i ∈ u, i < rows.length) :
    selLoop (some rows) (p ++ u) u.length u.head? =
      some (u.map (fun i => rows.getD i default)) := by
  induction u generalizing p with
  | nil => rfl
  | cons b u' ih =>
    have hblen : b < rows.length := hb b (List.mem_cons_self b u')
    have hget : rows.get? b = some (rows.getD b default) := by
      rw [List.getD_eq_getElem?_getD, ← List.get?_eq_getElem?]
      cases hg : rows.get? b with
      | none => exact absurd (List.get?_eq_none.mp hg) (Nat.not_le.mpr hblen)
      | some x => rfl
    have hnext : indexGreaterThan (p ++ b :: u') b = u'.head? := by
      unfold indexGreaterThan
      rw [filter_gt_of_pairwise p u' b hs]
    show selLoop (some rows) (p ++ b :: u') (u'.length + 1) (some b) = _
    rw [selLoop]
    have hrec : selLoop (some rows) (p ++ b :: u') u'.length
        (indexGreaterThan (p ++ b :: u') b) =
        some (u'.map (fun i => rows.getD i default)) := by
      rw [hnext]
      have hassoc : p ++ b :: u' = (p ++ [b]) ++ u' := by simp
      rw [hassoc]
      exact ih (p ++ [b]) (by rw [← hassoc]; exact hs)
        (fun i hi => hb i (List.mem_cons_of_mem b hi))
    simp only [Option.bind_eq_bind, Option.some_bind, hget, hrec]
    rfl

theorem selectionDidChange_spec (iface : Interface) (rows : List Row)
    (selIdxs : List Nat) (activeRow : Int)
    (hdata : iface.data = some rows)
    (hs : selIdxs.Pairwise (· < ·))
    (hb : ∀ i ∈ selIdxs, i < rows.length)
    (ha : activeRow = -1 ∨ 0 ≤ activeRow ∧ activeRow < (rows.length : Int)) :
    tableViewSelectionDidChange_ iface selIdxs activeRow =
      some (absSelFormula iface.multiple_select
              (selIdxs.map (fun i => rows.getD i default)),
            if iface.on_select then some (activeRowFormula rows activeRow)
            else none) := by
  have hloop : selLoop (some rows) selIdxs selIdxs.length selIdxs.head? =
      some (selIdxs.map (fun i => rows.getD i default)) := by
    have := selLoop_sorted rows [] selIdxs (by simpa using hs) hb
    simpa using this
  by_cases hneg : activeRow = -1
  · subst hneg
    cases hm : iface.multiple_select <;>
      simp [tableViewSelectionDidChange_, hloop, hdata, absSelFormula,
        activeRowFormula, hm]
  · rcases ha with ha | ⟨ha0, halen⟩
    · exact absurd ha hneg
    have hpy : pyIndex rows activeRow =
        some (rows.getD activeRow.toNat default) := by
      unfold pyIndex
      rw [if_neg (Int.not_lt.mpr ha0), if_pos ha0]
      have htn : activeRow.toNat < rows.length := by omega
      rw [List.getD_eq_getElem?_getD, ← List.get?_eq_getElem?]
      cases hg : rows.get? activeRow.toNat with
      | none => exact absurd (List.get?_eq_none.mp hg) (Nat.not_le.mpr htn)
      | some x => rfl
    cases hm : iface.multiple_select <;>
      simp [tableViewSelectionDidChange_, hloop, hdata, hpy, hneg,
        absSelFormula, activeRowFormula, hm]

/-- Master characterization of `tableView_objectValueForTableColumn_row_`
for a valid row access: the call succeeds, the returned datum is the cached
one (or freshly allocated at the end of the heap), its label and icon are
recomputed from the resolved value, the row's cache now maps the column to
the datum, and the heap grows by one exactly on a cache miss. -/
theorem objectValue_spec (iface : Interface) (heap : Heap) (rows : List Row)
    (row : Row) (colId : String) (rowIdx : Nat)
    (hdata : iface.data = some rows)
    (hrow : rows.get? rowIdx = some row)
    (hcache : ∀ p ∈ rowCache row, p.2 < heap.objs.length) :
    ∃ res, tableView_objectValueForTableColumn_row_ iface heap colId rowIdx =
        some res ∧
      res.datumId = (match (rowCache row).lookup colId with
                     | some d => d
                     | none => heap.objs.length) ∧
      res.label = some (strValue (stripIconPair (resolvedValue iface row colId))) ∧
      res.icon = some (iconFormula iface.factory (resolvedValue iface row colId)) ∧
      res.row = { row with impl := some (match (rowCache row).lookup colId with
                  | some _ => rowCache row
                  | none => rowCache row ++ [(colId, heap.objs.length)]) } ∧
      res.heap.objs.length = (match (rowCache row).lookup colId with
                              | some _ => heap.objs.length
                              | none => heap.objs.length + 1) := by
  unfold tableView_objectValueForTableColumn_row_
  simp only [hdata, hrow]
  refine ⟨_, rfl, ?_⟩
  cases hl : (rowCache row).lookup colId with
  | some d =>
    have hd : d < heap.objs.length := by
      obtain ⟨p, hp, hpv⟩ := lookup_some_mem _ _ _ hl
      exact hpv ▸ hcache p hp
    have hset : (heap.objs.set d
        (⟨some ⟨strValue (stripIconPair (resolvedValue iface row colId)),
               iconFormula iface.factory (resolvedValue iface row colId)⟩⟩ :
          TogaData))[d]? =
        some ⟨some ⟨strValue (stripIconPair (resolvedValue iface row colId)),
               iconFormula iface.factory (resolvedValue iface row colId)⟩⟩ := by
      rw [← List.get?_eq_getElem?]
      exact get?_set_lt _ _ _ hd
    refine ⟨?_, ?_, ?_, ?_, ?_⟩ <;>
      simp [getOrCreateDatum, hl, CellResult.label, CellResult.icon, Heap.setAttrs,
        splitIcon_eq, resolveValueStep_fst, hset, Heap.alloc]
  | none =>
    have hd : heap.objs.length <
        (heap.objs ++ [(⟨none⟩ : TogaData)]).length := by simp
    have hset : ((heap.objs ++ [(⟨none⟩ : TogaData)]).set heap.objs.length
        (⟨some ⟨strValue (stripIconPair (resolvedValue iface row colId)),
               iconFormula iface.factory (resolvedValue iface row colId)⟩⟩ :
          TogaData))[heap.objs.length]? =
        some ⟨some ⟨strValue (stripIconPair (resolvedValue iface row colId)),
               iconFormula iface.factory (resolvedValue iface row colId)⟩⟩ := by
      rw [← List.get?_eq_getElem?]
      exact get?_set_lt _ _ _ hd
    refine ⟨?_, ?_, ?_, ?_, ?_⟩ <;>
      simp [getOrCreateDatum, hl, CellResult.label, CellResult.icon, Heap.setAttrs,
        splitIcon_eq, resolveValueStep_fst, hset, Heap.alloc]

/-! ## Claim theorems -/

/-- Claim C7: `numberOfRowsInTableView_` returns the length of the
interface's data sequence whenever that sequence is present and non-empty,
and returns 0 when the data source is absent or empty. -/
theorem claim_C7_rowCount (iface : Interface) (rows : List Row) :
    (iface.data = some rows → rows ≠ [] →
      numberOfRowsInTableView_ iface = rows.length) ∧
    (iface.data = none ∨ iface.data = some ([] : List Row) →
      numberOfRowsInTableView_ iface = 0) := by
  constructor
  · intro h hne
    simp [numberOfRowsInTableView_, h, hne]
  · rintro (h | h) <;> simp [numberOfRowsInTableView_, h]

/-- Witness for C7: three rows give count 3; an absent and an empty data
source give count 0. -/
theorem claim_C7_witness :
    numberOfRowsInTableView_ exIface = 3 ∧
    numberOfRowsInTableView_ exIfaceNone = 0 ∧
    numberOfRowsInTableView_ exIfaceEmpty = 0 := by
  refine ⟨?_, ?_, ?_⟩
  · have h := (claim_C7_rowCount exIface [exRowA, exRowB, exRowC]).1 rfl (by simp)
    simpa using h
  · exact (claim_C7_rowCount exIfaceNone []).2 (Or.inl rfl)
  · exact (claim_C7_rowCount exIfaceEmpty []).2 (Or.inr rfl)

/-- Claim C6: each single call to `insert`, `change`, `remove`, or `clear`
(with any arguments) issues exactly one full `reloadData` call to the
native view and performs no other action (no state change, no other
native call). -/
theorem claim_C6_mutations_reload (s : TableState) (index : Nat) (item : Row) :
    TableImpl.insert s index item = (s, [NativeCall.reloadData]) ∧
    TableImpl.change s item = (s, [NativeCall.reloadData]) ∧
    TableImpl.remove s item = (s, [NativeCall.reloadData]) ∧
    TableImpl.clear s = (s, [NativeCall.reloadData]) :=
  ⟨rfl, rfl, rfl, rfl⟩

/-- Claim C9: `insert`, `change`, `remove`, `clear`, `change_source`,
`scroll_to_row`, `set_on_select` and `rehint` leave the adapter's
`columns` list and `column_identifiers` map unchanged; `set_on_select`
stores nothing and modifies no adapter state at all. -/
theorem claim_C9_frame (s : TableState) (index : Nat) (item : Row)
    (handler rowNum : Nat) :
    (TableImpl.insert s index item).1.columns = s.columns ∧
    (TableImpl.insert s index item).1.column_identifiers = s.column_identifiers ∧
    (TableImpl.change s item).1.columns = s.columns ∧
    (TableImpl.change s item).1.column_identifiers = s.column_identifiers ∧
    (TableImpl.remove s item).1.columns = s.columns ∧
    (TableImpl.remove s item).1.column_identifiers = s.column_identifiers ∧
    (TableImpl.clear s).1.columns = s.columns ∧
    (TableImpl.clear s).1.column_identifiers = s.column_identifiers ∧
    (TableImpl.change_source s).1.columns = s.columns ∧
    (TableImpl.change_source s).1.column_identifiers = s.column_identifiers ∧
    (TableImpl.scroll_to_row s rowNum).1.columns = s.columns ∧
    (TableImpl.scroll_to_row s rowNum).1.column_identifiers = s.column_identifiers ∧
    (TableImpl.rehint s).1.columns = s.columns ∧
    (TableImpl.rehint s).1.column_identifiers = s.column_identifiers ∧
    TableImpl.set_on_select s handler = (s, []) :=
  ⟨rfl, rfl, rfl, rfl, rfl, rfl, rfl, rfl, rfl, rfl, rfl, rfl, rfl, rfl, rfl⟩

/-- Claim C5: `remove_column` on an accessor that was never added raises a
`KeyError` that propagates to the caller, before any mutation: the
adapter's state (in particular `columns` and `column_identifiers`) is
unchanged and no native call was issued. -/
theorem claim_C5_remove_never_added (s : TableState) (a : String)
    (h : s.column_identifiers.lookup a = none) :
    TableImpl.remove_column s a = ⟨s, [], some TableErr.keyError⟩ := by
  unfold TableImpl.remove_column
  rw [h]

/-- Witness for C5: removing the never-added accessor `age` from the
single-column state fails with `KeyError` and leaves the state intact. -/
theorem claim_C5_witness :
    exState.column_identifiers.lookup "age" = none ∧
    TableImpl.remove_column exState "age" =
      ⟨exState, [], some TableErr.keyError⟩ :=
  ⟨by decide, claim_C5_remove_never_added exState "age" (by decide)⟩

/-- Claim C4: on a well-formed adapter state, adding a column for an
accessor that is not currently tracked and then removing that accessor
restores the `columns` list and the `column_identifiers` map to exactly
their state before the add, and the removal raises no exception. -/
theorem claim_C4_add_remove_roundtrip (s : TableState) (heading a : String)
    (hwf : s.WF) (hfresh : s.column_identifiers.lookup a = none) :
    (TableImpl.remove_column (TableImpl.add_column s heading a).1 a).state.columns
        = s.columns ∧
    (TableImpl.remove_column
        (TableImpl.add_column s heading a).1 a).state.column_identifiers
        = s.column_identifiers ∧
    (TableImpl.remove_column (TableImpl.add_column s heading a).1 a).err
        = none := by
  obtain ⟨hTC, hUid, hTracked⟩ := hwf
  have hadd : (TableImpl.add_column s heading a).1 =
      { nextUid := s.nextUid + 1
        tableColumns := s.tableColumns ++ [⟨s.nextUid, a, heading⟩]
        columns := s.columns ++ [⟨s.nextUid, a, heading⟩]
        column_identifiers := s.column_identifiers ++ [(a, a)] } := by
    unfold TableImpl.add_column TableImpl._add_column dictInsert
    simp [hfresh]
  rw [hadd]
  have hlook : ((s.column_identifiers ++ [(a, a)]).lookup a) = some a := by
    rw [lookup_append_of_none _ _ _ hfresh]
    simp [List.lookup]
  have hnoT : s.tableColumns.find? (fun col => col.identifier = a) = none := by
    rw [List.find?_eq_none]
    intro x hx hpx
    have hia : x.identifier = a := by simpa using hpx
    have := hTracked x hx
    rw [hia, hfresh] at this
    exact absurd this (by simp)
  have hfind : ((s.tableColumns ++ [(⟨s.nextUid, a, heading⟩ : NativeCol)]).find?
      (fun col => col.identifier = a)) = some ⟨s.nextUid, a, heading⟩ := by
    rw [List.find?_append, hnoT]
    simp [List.find?]
  have hcnotT : (⟨s.nextUid, a, heading⟩ : NativeCol) ∉ s.tableColumns := by
    intro hm
    exact absurd (hUid _ hm) (by simp)
  have hcnotC : (⟨s.nextUid, a, heading⟩ : NativeCol) ∉ s.columns := by
    rw [hTC]; exact hcnotT
  have hremT : removeFirst (s.tableColumns ++ [(⟨s.nextUid, a, heading⟩ : NativeCol)])
      ⟨s.nextUid, a, heading⟩ = s.tableColumns := by
    rw [removeFirst_append_of_not_mem _ _ _ hcnotT]
    simp [removeFirst]
  have hremC : removeFirst (s.columns ++ [(⟨s.nextUid, a, heading⟩ : NativeCol)])
      ⟨s.nextUid, a, heading⟩ = s.columns := by
    rw [removeFirst_append_of_not_mem _ _ _ hcnotC]
    simp [removeFirst]
  have hdel : dictDelete (s.column_identifiers ++ [(a, a)]) a
      = s.column_identifiers := by
    unfold dictDelete
    rw [List.filter_append, filter_ne_of_lookup_none _ _ hfresh]
    simp
  unfold TableImpl.remove_column TableImpl.tableColumnWithIdentifier
  simp only [hlook, hfind]
  rw [if_pos (by simp : (⟨s.nextUid, a, heading⟩ : NativeCol) ∈
      s.columns ++ [(⟨s.nextUid, a, heading⟩ : NativeCol)])]
  exact ⟨hremC, hdel, rfl⟩

/-- Witness for C4: the single-column `create` state is well-formed, the
accessor `age` is untracked, and add-then-remove of `age` restores the
column bookkeeping. -/
theorem claim_C4_witness :
    exState.WF ∧ exState.column_identifiers.lookup "age" = none ∧
    (TableImpl.remove_column
        (TableImpl.add_column exState "Age" "age").1 "age").state.columns
      = exState.columns ∧
    (TableImpl.remove_column
        (TableImpl.add_column exState "Age" "age").1 "age").state.column_identifiers
      = exState.column_identifiers ∧
    (TableImpl.remove_column
        (TableImpl.add_column exState "Age" "age").1 "age").err = none := by
  have h := claim_C4_add_remove_roundtrip exState "Age" "age" (by decide) (by decide)
  exact ⟨by decide, by decide, h.1, h.2.1, h.2.2⟩

/-- Claim C2: after a selection-change notification the abstract selection
stored on the interface is the first (lowest-index) selected row — or no
selection — when multiple-select is disabled, and the full list of selected
rows in ascending index order when it is enabled. -/
theorem claim_C2_selection (iface : Interface) (rows : List Row)
    (selIdxs : List Nat) (activeRow : Int)
    (hdata : iface.data = some rows)
    (hs : selIdxs.Pairwise (· < ·))
    (hb : ∀ i ∈ selIdxs, i < rows.length)
    (ha : activeRow = -1 ∨ 0 ≤ activeRow ∧ activeRow < (rows.length : Int)) :
    ∃ cb, tableViewSelectionDidChange_ iface selIdxs activeRow =
      some ((if iface.multiple_select then
               AbstractSel.multi (selIdxs.map (fun i => rows.getD i default))
             else
               match selIdxs with
               | [] => AbstractSel.noSel
               | i :: _ => AbstractSel.single (rows.getD i default)), cb) := by
  have h := selectionDidChange_spec iface rows selIdxs activeRow hdata hs hb ha
  refine ⟨if iface.on_select then some (activeRowFormula rows activeRow) else none,
    h.trans ?_⟩
  congr 2
  unfold absSelFormula
  cases iface.multiple_select
  · cases selIdxs <;> simp
  · simp

/-- Witness for C2: under multiple-select, selecting the ascending index
set `{0, 2}` of the three-row interface stores the ordered row list
`[exRowA, exRowC]`. -/
theorem claim_C2_witness :
    ∃ cb, tableViewSelectionDidChange_ exIface [0, 2] 2 =
      some (AbstractSel.multi [exRowA, exRowC], cb) := by
  obtain ⟨cb, hcb⟩ := claim_C2_selection exIface [exRowA, exRowB, exRowC]
    [0, 2] 2 rfl (by decide) (by decide) (Or.inr ⟨by decide, by decide⟩)
  exact ⟨cb, by rw [hcb]; rfl⟩

/-- Claim C3: on every selection-change notification the `on_select`
callback, when registered, is invoked exactly once with the row at the
toolkit's active-row index (or with none when that index is −1); the
callback argument is computed from the active row, independent of the
multiple-select aggregate selection computed in the same handler. -/
theorem claim_C3_callback (iface : Interface) (rows : List Row)
    (selIdxs : List Nat) (activeRow : Int)
    (hdata : iface.data = some rows)
    (hs : selIdxs.Pairwise (· < ·))
    (hb : ∀ i ∈ selIdxs, i < rows.length)
    (ha : activeRow = -1 ∨ 0 ≤ activeRow ∧ activeRow < (rows.length : Int)) :
    (∃ sel, tableViewSelectionDidChange_ iface selIdxs activeRow =
       some (sel,
         if iface.on_select then
           some (if activeRow = -1 then none
                 else some (rows.getD activeRow.toNat default))
         else none)) ∧
    Option.map Prod.snd (tableViewSelectionDidChange_
        { iface with multiple_select := true } selIdxs activeRow) =
      Option.map Prod.snd (tableViewSelectionDidChange_
        { iface with multiple_select := false } selIdxs activeRow) := by
  constructor
  · refine ⟨absSelFormula iface.multiple_select
        (selIdxs.map (fun i => rows.getD i default)), ?_⟩
    rw [selectionDidChange_spec iface rows selIdxs activeRow hdata hs hb ha]
    rfl
  · rw [selectionDidChange_spec { iface with multiple_select := true } rows
        selIdxs activeRow hdata hs hb ha,
      selectionDidChange_spec { iface with multiple_select := false } rows
        selIdxs activeRow hdata hs hb ha]
    rfl

/-- Witness for C3: with the active row at index 2, the registered callback
of the multiple-select interface receives `exRowC` — not the aggregate
selection `[exRowA, exRowC]` computed in the same notification. -/
theorem claim_C3_witness :
    ∃ sel, tableViewSelectionDidChange_ exIface [0, 2] 2 =
      some (sel, some (some exRowC)) := by
  obtain ⟨⟨sel, h⟩, _⟩ := claim_C3_callback exIface [exRowA, exRowB, exRowC]
    [0, 2] 2 rfl (by decide) (by decide) (Or.inr ⟨by decide, by decide⟩)
  exact ⟨sel, by rw [h]; rfl⟩

/-- Claim C1 counterexample: for row `exRowC`, whose `both` attribute
resolves to the tuple `(icon, value)`, the rendered label is the string
form of the tuple's second component (`"v"`), not the string form of the
resolved attribute value itself (`"(I, v)"`) — so the label does not always
equal the string form of the resolved value. -/
theorem claim_C1_counterexample :
    Option.map CellResult.label
        (tableView_objectValueForTableColumn_row_ exIfaceSingle emptyHeap "both" 2) ≠
      some (some (strValue (resolvedValue exIfaceSingle exRowC "both"))) := by
  decide

/-- Claim C1 (amended): the returned render object's label equals the
string form of the resolved value after the `(icon, value)` tuple split —
in particular, for any non-tuple resolved value it is exactly the string
form of the resolved value — and the resolved value is the row's attribute
when present and the interface's configured missing_value exactly when the
row lacks the attribute. -/
theorem claim_C1_label (iface : Interface) (heap : Heap) (rows : List Row)
    (row : Row) (colId : String) (rowIdx : Nat) (mv : CellValue)
    (hdata : iface.data = some rows)
    (hrow : rows.get? rowIdx = some row)
    (hcache : ∀ p ∈ rowCache row, p.2 < heap.objs.length)
    (hmv : iface.missing_value = .value mv) :
    ∃ res, tableView_objectValueForTableColumn_row_ iface heap colId rowIdx =
        some res ∧
      res.label = some (strValue (stripIconPair (resolvedValue iface row colId))) ∧
      (∀ v, row.attrs.lookup colId = some v → resolvedValue iface row colId = v) ∧
      (row.attrs.lookup colId = none → resolvedValue iface row colId = mv) := by
  obtain ⟨res, h1, _, h3, _⟩ :=
    objectValue_spec iface heap rows row colId rowIdx hdata hrow hcache
  refine ⟨res, h1, h3, ?_, ?_⟩
  · intro v hv
    unfold resolvedValue
    rw [hv]
  · intro hn
    unfold resolvedValue
    rw [hn, hmv]

/-- Witness for the amended C1: the `name` cell of `exRowA` renders with
label `"Ana"`, the string form of the resolved plain value. -/
theorem claim_C1_witness :
    ∃ res, tableView_objectValueForTableColumn_row_ exIfaceSingle emptyHeap
        "name" 0 = some res ∧ res.label = some "Ana" := by
  obtain ⟨res, h1, h2, _, _⟩ := claim_C1_label exIfaceSingle emptyHeap
    [exRowA, exRowB, exRowC] exRowA "name" 0 (.plain "?" none)
    rfl rfl (by simp [rowCache, exRowA]) rfl
  exact ⟨res, h1, by rw [h2]; rfl⟩

/-- Claim C8: for every resolved cell value, a tuple `(icon, value)` is
split — the render object's icon is the tuple's first element unchanged
and its label is computed from the second — otherwise the icon is the
value's icon attribute bound through the interface's factory, or no icon
when the value has no icon attribute; the method returns a result in every
case (icon resolution propagates no error). -/
theorem claim_C8_icon (iface : Interface) (heap : Heap) (rows : List Row)
    (row : Row) (colId : String) (rowIdx : Nat)
    (hdata : iface.data = some rows)
    (hrow : rows.get? rowIdx = some row)
    (hcache : ∀ p ∈ rowCache row, p.2 < heap.objs.length) :
    ∃ res, tableView_objectValueForTableColumn_row_ iface heap colId rowIdx =
        some res ∧
      (∀ f v, resolvedValue iface row colId = .pair f v →
        res.icon = some (.raw f) ∧ res.label = some (strValue v)) ∧
      (∀ str ic, resolvedValue iface row colId = .plain str (some ic) →
        res.icon = some (.bound ic iface.factory)) ∧
      (∀ str, resolvedValue iface row colId = .plain str none →
        res.icon = some .nil) := by
  obtain ⟨res, h1, _, hlab, hicon, _, _⟩ :=
    objectValue_spec iface heap rows row colId rowIdx hdata hrow hcache
  refine ⟨res, h1, ?_, ?_, ?_⟩
  · intro f v hv
    rw [hv] at hicon hlab
    exact ⟨hicon, hlab⟩
  · intro str ic hv
    rw [hv] at hicon
    exact hicon
  · intro str hv
    rw [hv] at hicon
    exact hicon

/-- Witness for C8: the `pic` cell of `exRowB` resolves to a plain value
with icon attribute 5, which is bound through factory 9; the `both` cell of
`exRowC` is a tuple whose first element becomes the icon unchanged. -/
theorem claim_C8_witness :
    (∃ res, tableView_objectValueForTableColumn_row_ exIface emptyHeap
        "pic" 1 = some res ∧ res.icon = some (.bound 5 9)) ∧
    (∃ res, tableView_objectValueForTableColumn_row_ exIface emptyHeap
        "both" 2 = some res ∧ res.icon = some (.raw (.plain "I" none)) ∧
        res.label = some "v") := by
  constructor
  · obtain ⟨res, h1, _, hplain, _⟩ := claim_C8_icon exIface emptyHeap
      [exRowA, exRowB, exRowC] exRowB "pic" 1 rfl rfl
      (by simp [rowCache, exRowB])
    exact ⟨res, h1, hplain "B" 5 rfl⟩
  · obtain ⟨res, h1, hpair, _, _⟩ := claim_C8_icon exIface emptyHeap
      [exRowA, exRowB, exRowC] exRowC "both" 2 rfl rfl
      (by simp [rowCache, exRowC])
    exact ⟨res, h1, (hpair (.plain "I" none) (.plain "v" none) rfl).1,
      (hpair (.plain "I" none) (.plain "v" none) rfl).2⟩

/-- Claim C10: the first call for a (row, column) with no cache entry
allocates a fresh `TogaData`, stores it in the row's per-row cache under
the column identifier, and every subsequent call with the same row and
column — here with arbitrarily changed row attributes in between — returns
that identical cached object (same heap id, no new allocation); on every
call, including the cache hit, the object's label and icon are recomputed
from the row's current attribute value and overwritten. -/
theorem claim_C10_cache (iface : Interface) (heap : Heap) (rows : List Row)
    (row : Row) (colId : String) (rowIdx : Nat)
    (newAttrs : List (String × CellValue))
    (hdata : iface.data = some rows)
    (hrow : rows.get? rowIdx = some row)
    (hcache : ∀ p ∈ rowCache row, p.2 < heap.objs.length)
    (hmiss : (rowCache row).lookup colId = none) :
    ∃ res1 res2,
      tableView_objectValueForTableColumn_row_ iface heap colId rowIdx =
        some res1 ∧
      res1.datumId = heap.objs.length ∧
      (rowCache res1.row).lookup colId = some res1.datumId ∧
      res1.heap.objs.length = heap.objs.length + 1 ∧
      res1.label = some (strValue (stripIconPair (resolvedValue iface row colId))) ∧
      res1.icon = some (iconFormula iface.factory (resolvedValue iface row colId)) ∧
      tableView_objectValueForTableColumn_row_
          { iface with
              data := some (rows.set rowIdx { res1.row with attrs := newAttrs }) }
          res1.heap colId rowIdx = some res2 ∧
      res2.datumId = res1.datumId ∧
      res2.heap.objs.length = res1.heap.objs.length ∧
      res2.label = some (strValue (stripIconPair
        (resolvedValue iface { res1.row with attrs := newAttrs } colId))) ∧
      res2.icon = some (iconFormula iface.factory
        (resolvedValue iface { res1.row with attrs := newAttrs } colId)) := by
  obtain ⟨res1, h1, hid1, hlab1, hicon1, hrow1, hlen1⟩ :=
    objectValue_spec iface heap rows row colId rowIdx hdata hrow hcache
  simp only [hmiss] at hid1 hrow1 hlen1
  have hcache1 : rowCache res1.row = rowCache row ++ [(colId, heap.objs.length)] := by
    rw [hrow1]
    rfl
  have hl2 : (rowCache res1.row).lookup colId = some heap.objs.length := by
    rw [hcache1, lookup_append_of_none _ _ _ hmiss]
    simp [List.lookup]
  have hidx : rowIdx < rows.length := by
    by_contra hle
    rw [List.get?_eq_none.mpr (Nat.le_of_not_lt hle)] at hrow
    exact absurd hrow (by simp)
  have hrow2get : (rows.set rowIdx { res1.row with attrs := newAttrs }).get? rowIdx =
      some { res1.row with attrs := newAttrs } := by
    exact get?_set_lt _ _ _ hidx
  have hcache2 : rowCache { res1.row with attrs := newAttrs } = rowCache res1.row := by
    rw [hcache1, hrow1]
    rfl
  have hcachebound2 : ∀ p ∈ rowCache { res1.row with attrs := newAttrs },
      p.2 < res1.heap.objs.length := by
    rw [hcache2, hcache1, hlen1]
    intro p hp
    rcases List.mem_append.mp hp with hp | hp
    · exact Nat.lt_succ_of_lt (hcache p hp)
    · simp only [List.mem_singleton] at hp
      rw [hp]
      exact Nat.lt_succ_self _
  obtain ⟨res2, h2, hid2, hlab2, hicon2, _, hlen2⟩ :=
    objectValue_spec
      { iface with
          data := some (rows.set rowIdx { res1.row with attrs := newAttrs }) }
      res1.heap (rows.set rowIdx { res1.row with attrs := newAttrs })
      { res1.row with attrs := newAttrs } colId rowIdx rfl hrow2get hcachebound2
  rw [hcache2, hl2] at hid2 hlen2
  refine ⟨res1, res2, h1, hid1, by rw [hl2, hid1], hlen1, hlab1, hicon1, h2,
    by rw [hid2, hid1], hlen2, ?_, ?_⟩
  · exact hlab2
  · exact hicon2

/-- Witness for C10: the `name` cell of `exRowA` on the empty heap —
the first call allocates datum 0 and caches it; after changing the `name`
attribute to `"Zoe"`, the second call returns the same datum with the
recomputed label. -/
theorem claim_C10_witness :
    ∃ res1 res2,
      tableView_objectValueForTableColumn_row_ exIfaceSingle emptyHeap
          "name" 0 = some res1 ∧
      res1.datumId = emptyHeap.objs.length ∧
      (rowCache res1.row).lookup "name" = some res1.datumId ∧
      res1.heap.objs.length = emptyHeap.objs.length + 1 ∧
      res1.label = some (strValue (stripIconPair
        (resolvedValue exIfaceSingle exRowA "name"))) ∧
      res1.icon = some (iconFormula exIfaceSingle.factory
        (resolvedValue exIfaceSingle exRowA "name")) ∧
      tableView_objectValueForTableColumn_row_
          { exIfaceSingle with
              data := some ([exRowA, exRowB, exRowC].set 0
                { res1.row with attrs := [("name", CellValue.plain "Zoe" none)] }) }
          res1.heap "name" 0 = some res2 ∧
      res2.datumId = res1.datumId ∧
      res2.heap.objs.length = res1.heap.objs.length ∧
      res2.label = some (strValue (stripIconPair (resolvedValue exIfaceSingle
        { res1.row with attrs := [("name", CellValue.plain "Zoe" none)] } "name"))) ∧
      res2.icon = some (iconFormula exIfaceSingle.factory
        (resolvedValue exIfaceSingle
          { res1.row with attrs := [("name", CellValue.plain "Zoe" none)] } "name")) :=
  claim_C10_cache exIfaceSingle emptyHeap [exRowA, exRowB, exRowC] exRowA
    "name" 0 [("name", CellValue.plain "Zoe" none)] rfl rfl
    (by simp [rowCache, exRowA]) rfl

end TogaCocoaTable
